import Mathlib

/-!
Verification of the batch-write engine of `framework_cg` (files
`framework_cg/loader.py` and `framework_cg/conn.py`).

The embedding is shallow: Python strings are lists of characters, Python
cell values are an inductive `PyVal`, and the side effects of a call
(log emissions, connection open/close, chunk executions, commit) are an
explicit event trace.  Database nondeterminism (does `connect` raise?,
does the k-th `execute_values` call raise?) is an oracle `Db` supplied
to each modelled call.
-/

namespace FrameworkCG

/-! ## Python string primitives (over `List Char`) -/

/-- Python strings, represented by their character lists so that all
operations reduce in the kernel. -/
abbrev Str := List Char

/-- Python `s.split(sep)` for a one-character separator: splits on every
occurrence and keeps empty segments; `"".split(sep) = [""]`. -/
def splitOnChar (sep : Char) : Str → List Str
  | [] => [[]]
  | c :: rest =>
    match splitOnChar sep rest with
    | [] => if c = sep then [[], []] else [[c]]
    | g :: gs => if c = sep then [] :: g :: gs else (c :: g) :: gs

/-- Python `s.strip()`: remove leading and trailing whitespace. -/
def stripChars (cs : Str) : Str :=
  ((cs.dropWhile Char.isWhitespace).reverse.dropWhile Char.isWhitespace).reverse

/-- `sep.join(groups)`. -/
def joinSep (sep : Str) : List Str → Str
  | [] => []
  | [g] => g
  | g :: gs => g ++ sep ++ joinSep sep gs

/-- Double every `"` character (psycopg2 identifier escaping). -/
def escDouble : Str → Str
  | [] => []
  | c :: rest => if c = '"' then '"' :: '"' :: escDouble rest else c :: escDouble rest

/-- `psycopg2.sql.Identifier`: wrap in double quotes, interior double
quotes doubled. -/
def quoteIdent (s : Str) : Str := '"' :: (escDouble s ++ ['"'])

/-- Python `s.split(sep, 1)`: split only on the first occurrence. -/
def splitFirst (sep : Char) (s : Str) : List Str :=
  match splitOnChar sep s with
  | [] => [s]
  | [g] => [g]
  | g :: gs => [g, joinSep [sep] gs]

/-- Decimal rendering of a natural number, as Python `str`/f-strings do. -/
def natToStr (n : Nat) : Str := (Nat.repr n).data

/-! ## Identifier construction (`DataLoader._qual_name`, `_base_name`,
`_qualify_table`) -/

/-- `DataLoader._qual_name`: split the reference on every `.`, strip each
segment, quote each segment, and join with `.`. -/
def qualName (table : Str) : Str :=
  joinSep ['.'] ((splitOnChar '.' table).map (fun p => quoteIdent (stripChars p)))

/-- `DataLoader._base_name`: only the last `.`-separated segment, stripped
and quoted. -/
def baseName (table : Str) : Str :=
  quoteIdent (stripChars ((splitOnChar '.' table).getLast?.getD []))

/-- `DataLoader._qualify_table`: if the reference contains a `.`, split on
the first one into schema and table (no stripping) and quote both; else
quote the whole reference. -/
def qualifyTable (table : Str) : Str :=
  if table.contains '.' then
    match splitFirst '.' table with
    | [schema, tbl] => quoteIdent schema ++ ['.'] ++ quoteIdent tbl
    | _ => quoteIdent table
  else quoteIdent table

/-! ## Cell values and `DataLoader._to_native` -/

/-- A timezone-aware or naive instant (`pandas.Timestamp` /
`datetime.datetime` payload). -/
structure PyTs where
  epochUs : Int
  tz : Option Str
  deriving DecidableEq

/-- The value domain of dataset cells: Python scalars, the missing-value
markers, numpy scalar wrappers, and pandas temporal wrappers. -/
inductive PyVal where
  | none
  | nan
  | naT
  | pyInt (n : Int)
  | pyFloat (q : Rat)
  | pyStr (s : Str)
  | pyBool (b : Bool)
  | npInt (n : Int)
  | npFloat (q : Rat)
  | npBool (b : Bool)
  | timestamp (t : PyTs)
  | datetime (t : PyTs)
  | timedelta (secs : Rat)
  | pyObj (tag : Str)
  deriving DecidableEq

/-- `pandas.isna` on a scalar: true exactly for the missing-value
markers `None`, `NaN`, `NaT`. -/
def pdIsna : PyVal → Bool
  | .none => true
  | .nan => true
  | .naT => true
  | _ => false

/-- `isinstance(val, np.generic)`. -/
def isNpGeneric : PyVal → Bool
  | .npInt _ => true
  | .npFloat _ => true
  | .npBool _ => true
  | _ => false

/-- `np.generic.item()`: the native Python scalar of a numpy wrapper. -/
def npItem : PyVal → PyVal
  | .npInt n => .pyInt n
  | .npFloat q => .pyFloat q
  | .npBool b => .pyBool b
  | v => v

/-- `isinstance(val, pd.Timestamp)`. -/
def isPdTimestamp : PyVal → Bool
  | .timestamp _ => true
  | _ => false

/-- `pd.Timestamp.to_pydatetime()`: same instant, same timezone. -/
def toPydatetime : PyVal → PyVal
  | .timestamp t => .datetime t
  | v => v

/-- `isinstance(val, pd.Timedelta)`. -/
def isPdTimedelta : PyVal → Bool
  | .timedelta _ => true
  | _ => false

/-- `pd.Timedelta.total_seconds()`. -/
def totalSeconds : PyVal → Rat
  | .timedelta s => s
  | _ => 0

/-- `DataLoader._to_native`: the cell coercion cascade of `loader.py`
lines 18-37, in source order. -/
def toNative (val : PyVal) : PyVal :=
  if val = PyVal.none then PyVal.none
  else if pdIsna val then PyVal.none
  else if isNpGeneric val then npItem val
  else if isPdTimestamp val then toPydatetime val
  else if isPdTimedelta val then .pyFloat (totalSeconds val)
  else val

/-! ## Datasets -/

/-- A pandas DataFrame: ordered column names and rows aligned to them. -/
structure DataFrame where
  cols : List Str
  rows : List (List PyVal)
  deriving DecidableEq

/-- `df.empty`: true when either axis has length zero. -/
def dfEmpty (df : DataFrame) : Bool := df.rows.isEmpty || df.cols.isEmpty

/-- The coerced row tuples of `upsert_df` (line 143): `_to_native` applied
to every cell, rows kept in order. -/
def coerceRows (df : DataFrame) : List (List PyVal) := df.rows.map (fun r => r.map toNative)

/-- `df.where(pd.notnull(df), None)` of `simple_insert` (line 85): mask
missing markers to `None` cell-wise. -/
def maskNa (v : PyVal) : PyVal := if pdIsna v then PyVal.none else v

/-- The coerced row tuples of `simple_insert` (lines 87-88): the NaN mask
followed by `_to_native` on every cell. -/
def insertCoerceRows (df : DataFrame) : List (List PyVal) :=
  df.rows.map (fun r => r.map (fun v => toNative (maskNa v)))

/-! ## Errors, events, database oracle -/

/-- A `psycopg2.Error`: exception class name, optional `pgcode` and
`pgerror` attributes, and its `str()` rendering. -/
structure PgError where
  typeName : Str
  pgcode : Option Str
  pgerror : Option Str
  strRepr : Str
  deriving DecidableEq

/-- A Python exception as the loader can observe it: `ValueError`
(configuration errors, zero-step `range`) or a `psycopg2.Error`. -/
inductive PyExc where
  | valueError (msg : Str)
  | pgErr (e : PgError)
  deriving DecidableEq

/-- `type(e).__name__`. -/
def excTypeName : PyExc → Str
  | .valueError _ => "ValueError".data
  | .pgErr e => e.typeName

/-- `str(e)`. -/
def excStr : PyExc → Str
  | .valueError m => m
  | .pgErr e => e.strRepr

/-- `f"{code}"` where `code = getattr(e, "pgcode", None)`. -/
def pgcodeStr : Option Str → Str
  | Option.none => "None".data
  | some s => s

/-- `getattr(e, "pgerror", None) or str(e)` (empty string is falsy). -/
def pgerrText (e : PgError) : Str :=
  match e.pgerror with
  | Option.none => e.strRepr
  | some s => if s = [] then e.strRepr else s

/-- Log levels accepted by the `ProcessLogger` collaborator. -/
inductive LogLevel where
  | debug
  | info
  | warning
  | error
  deriving DecidableEq

/-- Observable side effects of one loader call, in order. -/
inductive Event where
  | log (level : LogLevel) (msg : Str)
  | connect
  | execute (sqlText : Str) (rows : List (List PyVal)) (pageSize : Nat)
  | commit
  | close
  deriving DecidableEq

/-- The database oracle for one call: whether `psycopg2.connect` raises,
and whether the k-th `execute_values` call raises. -/
structure Db where
  connectResult : Option PgError
  execResult : Nat → Option PgError

/-- The oracle of an entirely successful call. -/
def dbOk : Db := ⟨Option.none, fun _ => Option.none⟩

theorem dbOk_connect : dbOk.connectResult = Option.none := rfl

theorem dbOk_exec : ∀ j, dbOk.execResult j = Option.none := fun _ => rfl

/-! ## `PostgresConnection.conectar_postgres` (conn.py lines 45-59) -/

def msgConnOpen : Str := "Conexão com PostgreSQL estabelecida com sucesso.".data

def msgConnClose : Str := "Conexão com PostgreSQL fechada com sucesso.".data

/-- The error line `conectar_postgres` logs before re-raising. -/
def connScopeErrMsg (ex : PyExc) : Str :=
  "Erro ao conectar/operar no PostgreSQL: ".data ++ excTypeName ex ++ " - ".data ++ excStr ex

/-- Events emitted while a connection is open. -/
def connOpenEvents : List Event := [Event.connect, Event.log .info msgConnOpen]

/-- Events of the `finally` block once a connection was opened. -/
def connCloseEvents : List Event := [Event.close, Event.log .info msgConnClose]

/-- The `conectar_postgres` context manager: `connect`, log, yield to the
body, log-and-reraise on any exception, and a `finally` that closes the
connection whenever one was opened.  `body` is the trace and outcome of
the `with`-block's body (which only runs if `connect` succeeded). -/
def conectarPostgres (connectResult : Option PgError) (body : List Event × Except PyExc Unit) :
    List Event × Except PyExc Unit :=
  match connectResult with
  | some e =>
    ([Event.log .error (connScopeErrMsg (PyExc.pgErr e))], Except.error (PyExc.pgErr e))
  | Option.none =>
    match body.2 with
    | Except.ok _ => (connOpenEvents ++ body.1 ++ connCloseEvents, Except.ok ())
    | Except.error ex =>
      (connOpenEvents ++ body.1 ++ [Event.log .error (connScopeErrMsg ex)] ++ connCloseEvents,
       Except.error ex)

/-! ## Chunking (`range(0, len(data), chunk_size)` and slicing) -/

/-- Number of chunk starts: `len(range(0, n, step))` for `step ≥ 1`,
i.e. the ceiling of `n / step`. -/
def numChunks (n step : Nat) : Nat := (n + step - 1) / step

/-- `range(0, n, step)` for a positive step. -/
def chunkStartsPos (n step : Nat) : List Nat :=
  (List.range (numChunks n step)).map (fun i => i * step)

def rangeErrMsg : Str := "range() arg 3 must not be zero".data

/-- `range(0, n, step)` for an arbitrary Python int step: a zero step
raises `ValueError`, a negative step (with stop `n ≥ 0`) is empty. -/
def pyRangeStarts (n : Nat) (step : Int) : Except PyExc (List Nat) :=
  if step = 0 then Except.error (PyExc.valueError rangeErrMsg)
  else if step < 0 then Except.ok []
  else Except.ok (chunkStartsPos n step.toNat)

/-- The chunk sequence `[data[i:i+step] for i in range(0, len(data), step)]`. -/
def sliceChunks (step : Nat) (data : List α) : List (List α) :=
  (chunkStartsPos data.length step).map (fun i => (data.drop i).take step)

/-! ## The chunk execution loop of `upsert_df` (lines 184-188) -/

/-- The `for i in range(...)` loop body: each iteration slices a chunk and
calls `execute_values(cur, sql, chunk, page_size=len(chunk))`; the k-th
call raises iff the oracle says so, aborting the loop. -/
def execLoop (db : Db) (sqlText : Str) (data : List (List PyVal)) (step : Nat) :
    List Nat → Nat → List Event × Except PyExc Unit
  | [], _ => ([], Except.ok ())
  | i :: rest, k =>
    let chunk := (data.drop i).take step
    match db.execResult k with
    | some e => ([Event.execute sqlText chunk chunk.length], Except.error (PyExc.pgErr e))
    | Option.none =>
      let r := execLoop db sqlText data step rest (k + 1)
      (Event.execute sqlText chunk chunk.length :: r.1, r.2)

/-- The body of the `with conn` block in `upsert_df`: build the range
(raising on a zero step), run the chunk loop, and commit once after the
loop when every chunk succeeded. -/
def runBody (db : Db) (sqlText : Str) (data : List (List PyVal)) (chunkSize : Int) :
    List Event × Except PyExc Unit :=
  match pyRangeStarts data.length chunkSize with
  | Except.error e => ([], Except.error e)
  | Except.ok starts =>
    let r := execLoop db sqlText data chunkSize.toNat starts 0
    match r.2 with
    | Except.ok _ => (r.1 ++ [Event.commit], Except.ok ())
    | Except.error e => (r.1, Except.error e)

/-! ## SQL statement text of `upsert_df` (lines 142-177) -/

/-- `sql.SQL(', ').join(sql.Identifier(c) for c in cols)`. -/
def colsStrOf (insertCols : List Str) : Str := joinSep ", ".data (insertCols.map quoteIdent)

/-- `INSERT INTO {tbl} ({cols}) VALUES %s` with `_qual_name` quoting
(upsert path). -/
def insertSqlText (table : Str) (insertCols : List Str) : Str :=
  "INSERT INTO ".data ++ qualName table ++ " (".data ++ colsStrOf insertCols ++ ") VALUES %s".data

/-- Line 151: `[c for c in insert_cols if c not in (set(conflict_cols) |
exclude_update)]`. -/
def updColsOf (insertCols conflictCols excludeUpdate : List Str) : List Str :=
  insertCols.filter (fun c => !(conflictCols.contains c || excludeUpdate.contains c))

/-- The quoted conflict-target list. -/
def conflictIdentOf (conflictCols : List Str) : Str :=
  joinSep ", ".data (conflictCols.map quoteIdent)

/-- The `SET` list: `"{c} = EXCLUDED.{c}"` joined by `, `. -/
def setPairsOf (updCols : List Str) : Str :=
  joinSep ", ".data (updCols.map (fun c => quoteIdent c ++ " = EXCLUDED.".data ++ quoteIdent c))

/-- The no-op guard: `"EXCLUDED.{c} IS DISTINCT FROM {t}.{c}"` joined by
` OR `, with `t` the quoted base table name. -/
def whereDiffOf (table : Str) (updCols : List Str) : Str :=
  joinSep " OR ".data (updCols.map (fun c =>
    "EXCLUDED.".data ++ quoteIdent c ++ " IS DISTINCT FROM ".data ++ baseName table
      ++ ".".data ++ quoteIdent c))

def invalidPolicyMsg : Str := "on_conflict deve ser \x27update\x27 ou \x27nothing\x27.".data

/-- Lines 155-175: the `ON CONFLICT` clause.  Note the source order: the
`DO NOTHING` branch fires for policy `"nothing"` or an empty
update-column list, the `DO UPDATE` branch for policy `"update"`, and
only otherwise is the `ValueError` raised. -/
def onConflictPart (table : Str) (insertCols conflictCols excludeUpdate : List Str)
    (onConflict : Str) : Except PyExc Str :=
  if onConflict = "nothing".data ∨ updColsOf insertCols conflictCols excludeUpdate = [] then
    Except.ok (" ON CONFLICT (".data ++ conflictIdentOf conflictCols ++ ") DO NOTHING".data)
  else if onConflict = "update".data then
    Except.ok (" ON CONFLICT (".data ++ conflictIdentOf conflictCols ++ ") DO UPDATE SET ".data
      ++ setPairsOf (updColsOf insertCols conflictCols excludeUpdate) ++ " WHERE ".data
      ++ whereDiffOf table (updColsOf insertCols conflictCols excludeUpdate))
  else
    Except.error (PyExc.valueError invalidPolicyMsg)

/-- Lines 153 and 177: the full statement text `insert_sql + on_conflict_sql`. -/
def upsertStatement (table : Str) (insertCols conflictCols excludeUpdate : List Str)
    (onConflict : Str) : Except PyExc Str :=
  match onConflictPart table insertCols conflictCols excludeUpdate onConflict with
  | Except.error e => Except.error e
  | Except.ok oc => Except.ok (insertSqlText table insertCols ++ oc)

/-! ## The loader calls -/

deriving instance DecidableEq for Except

/-- The value a call returns (`Except.ok`) or the exception it propagates
(`Except.error`), together with its event trace. -/
structure CallOutput where
  events : List Event
  result : Except PyExc PyVal
  deriving DecidableEq

def warnEmptyMsg (table : Str) : Str := "DataFrame vazio para ".data ++ table ++ ".".data

def emptyConflictMsg : Str := "conflict_cols não pode ser vazio para upsert.".data

def upsertErrMsg (table : Str) (e : PgError) : Str :=
  "Erro no upsert em ".data ++ table ++ ": ".data ++ e.typeName ++ " (code=".data
    ++ pgcodeStr e.pgcode ++ ") ".data ++ pgerrText e

def insertErrMsg (table : Str) (e : PgError) : Str :=
  "Erro no insert em ".data ++ table ++ ": ".data ++ e.typeName ++ " (code=".data
    ++ pgcodeStr e.pgcode ++ ") ".data ++ pgerrText e

def upsertOkMsg (table : Str) (n : Nat) : Str :=
  natToStr n ++ " linhas processadas em ".data ++ table ++ ".".data

def insertOkMsg (table : Str) (n : Nat) : Str :=
  natToStr n ++ " linhas inseridas em ".data ++ table ++ ".".data

/-- The `try`/`except` tail of `upsert_df` (lines 179-197): run the chunk
loop inside the connection scope, then either log the success line and
return `None`, or catch a `psycopg2.Error` (log it, return `None`), or
let any other exception propagate. -/
def upsertTail (db : Db) (table : Str) (fullSql : Str) (data : List (List PyVal))
    (chunk_size : Int) : CallOutput :=
  let r := conectarPostgres db.connectResult (runBody db fullSql data chunk_size)
  match r.2 with
  | Except.ok _ =>
    ⟨r.1 ++ [Event.log .info (upsertOkMsg table data.length)], Except.ok PyVal.none⟩
  | Except.error (PyExc.pgErr e) =>
    ⟨r.1 ++ [Event.log .error (upsertErrMsg table e)], Except.ok PyVal.none⟩
  | Except.error ex => ⟨r.1, Except.error ex⟩

/-- `DataLoader.upsert_df` (lines 117-197).  Returns Python `None` on all
non-raising paths; the `conn is None` branch of the source is
unreachable here because `connect` is modelled as raising on failure,
exactly as the `psycopg2.connect` it wraps does. -/
def upsert_df (db : Db) (table : Str) (df : Option DataFrame) (conflict_cols : List Str)
    (exclude_update : List Str) (on_conflict : Str) (chunk_size : Int) : CallOutput :=
  match df with
  | Option.none => ⟨[Event.log .warning (warnEmptyMsg table)], Except.ok PyVal.none⟩
  | some d =>
    if dfEmpty d then ⟨[Event.log .warning (warnEmptyMsg table)], Except.ok PyVal.none⟩
    else if conflict_cols = [] then
      ⟨[], Except.error (PyExc.valueError emptyConflictMsg)⟩
    else
      match upsertStatement table d.cols conflict_cols exclude_update on_conflict with
      | Except.error e => ⟨[], Except.error e⟩
      | Except.ok fullSql => upsertTail db table fullSql (coerceRows d) chunk_size

/-- `DataLoader.simple_insert` (lines 69-115).  One `execute_values` call
(pagination inside the driver), explicit commit, returns the inserted
row count on success and `0` on both the empty-input and failure paths. -/
def simple_insert (db : Db) (table : Str) (df : Option DataFrame) (page_size : Nat) : CallOutput :=
  match df with
  | Option.none => ⟨[Event.log .warning (warnEmptyMsg table)], Except.ok (PyVal.pyInt 0)⟩
  | some d =>
    if dfEmpty d then ⟨[Event.log .warning (warnEmptyMsg table)], Except.ok (PyVal.pyInt 0)⟩
    else
      let data := insertCoerceRows d
      let q := "INSERT INTO ".data ++ qualifyTable table ++ " (".data ++ colsStrOf d.cols
        ++ ") VALUES %s".data
      let body : List Event × Except PyExc Unit :=
        match db.execResult 0 with
        | some e => ([Event.execute q data page_size], Except.error (PyExc.pgErr e))
        | Option.none => ([Event.execute q data page_size, Event.commit], Except.ok ())
      let r := conectarPostgres db.connectResult body
      match r.2 with
      | Except.ok _ =>
        ⟨r.1 ++ [Event.log .info (insertOkMsg table data.length)],
         Except.ok (PyVal.pyInt data.length)⟩
      | Except.error (PyExc.pgErr e) =>
        ⟨r.1 ++ [Event.log .error (insertErrMsg table e)], Except.ok (PyVal.pyInt 0)⟩
      | Except.error ex => ⟨r.1, Except.error ex⟩

/-! ## Trace observers -/

/-- Is an event a chunk execution? -/
def isExecEvent : Event → Bool
  | .execute _ _ _ => true
  | _ => false

/-- The chunk executions of a trace, in order. -/
def executesOf (evs : List Event) : List Event := evs.filter isExecEvent

/-- The row tuples an execution event submitted. -/
def execEventRows : Event → List (List PyVal)
  | .execute _ rows _ => rows
  | _ => []

/-- The row count a call's returned value reports (Python `int` return
values report a count; `None` reports nothing). -/
def returnedRowCount : CallOutput → Option Int
  | ⟨_, Except.ok (PyVal.pyInt n)⟩ => some n
  | _ => Option.none

/-- The claim-side update-column set: dataset columns minus the union of
conflict columns and exclusion set, in dataset declaration order. -/
def specUpdateCols (cols conflictCols excl : List Str) : List Str :=
  cols.filter (fun c => decide (c ∉ conflictCols ∪ excl))

/-! ## Small concrete datasets used in counterexamples and witnesses -/

/-- Two columns, one row. -/
def dfTwoCol : DataFrame := ⟨["id".data, "v".data], [[PyVal.pyInt 1, PyVal.pyInt 2]]⟩

/-- One column, one row. -/
def dfOneCol : DataFrame := ⟨["id".data], [[PyVal.pyInt 7]]⟩

/-- One column, three rows. -/
def dfThreeRows : DataFrame :=
  ⟨["a".data], [[PyVal.pyInt 1], [PyVal.pyInt 2], [PyVal.pyInt 3]]⟩

/-- One column, 25000 identical rows. -/
def dfBig : DataFrame := ⟨["a".data], List.replicate 25000 [PyVal.pyInt 0]⟩

/-! ## Support lemmas -/

theorem dfEmpty_eq_false {d : DataFrame} (hr : d.rows ≠ []) (hc : d.cols ≠ []) :
    dfEmpty d = false := by
  simp [dfEmpty, List.isEmpty_eq_false, hr, hc]

theorem splitOnChar_ne_nil (sep : Char) : ∀ s : Str, splitOnChar sep s ≠ [] := by
  intro s
  induction s with
  | nil => simp [splitOnChar]
  | cons c rest ih =>
    cases h : splitOnChar sep rest with
    | nil => exact absurd h ih
    | cons g gs =>
      by_cases hc : c = sep <;> simp [splitOnChar, h, hc]

theorem splitOnChar_single (sep : Char) : ∀ s : Str, sep ∉ s → splitOnChar sep s = [s] := by
  intro s
  induction s with
  | nil => intro _; rfl
  | cons c rest ih =>
    intro h
    have hc : ¬ c = sep := by
      intro hcs
      exact h (by simp [hcs])
    have hrest : sep ∉ rest := fun hm => h (List.mem_cons_of_mem _ hm)
    simp [splitOnChar, ih hrest, hc]

theorem splitOnChar_append (sep : Char) :
    ∀ g rest : Str, sep ∉ g →
      splitOnChar sep (g ++ sep :: rest) = g :: splitOnChar sep rest := by
  intro g
  induction g with
  | nil =>
    intro rest _
    cases h : splitOnChar sep rest with
    | nil => exact absurd h (splitOnChar_ne_nil sep rest)
    | cons x xs => simp [splitOnChar, h]
  | cons c g' ih =>
    intro rest h
    have hc : ¬ c = sep := by
      intro hcs
      exact h (by simp [hcs])
    have hg : sep ∉ g' := fun hm => h (List.mem_cons_of_mem _ hm)
    have := ih rest hg
    simp [splitOnChar, this, hc]

theorem splitOnChar_joinSep (sep : Char) :
    ∀ segs : List Str, segs ≠ [] → (∀ s ∈ segs, sep ∉ s) →
      splitOnChar sep (joinSep [sep] segs) = segs := by
  intro segs
  induction segs with
  | nil => intro h; exact absurd rfl h
  | cons g gs ih =>
    intro _ hall
    cases gs with
    | nil => exact splitOnChar_single sep g (hall g (by simp))
    | cons g2 gs' =>
      have hjoin : joinSep [sep] (g :: g2 :: gs') = g ++ sep :: joinSep [sep] (g2 :: gs') := by
        simp [joinSep]
      rw [hjoin, splitOnChar_append sep g _ (hall g (by simp)),
        ih (by simp) (fun s hs => hall s (List.mem_cons_of_mem _ hs))]

theorem numChunks_zero (step : Nat) (hs : 1 ≤ step) : numChunks 0 step = 0 := by
  unfold numChunks
  exact Nat.div_eq_of_lt (by omega)

theorem numChunks_succ (n step : Nat) (hs : 1 ≤ step) (hn : 1 ≤ n) :
    numChunks n step = numChunks (n - step) step + 1 := by
  unfold numChunks
  rcases Nat.le_total n step with h | h
  · have h1 : n - step = 0 := by omega
    have h2 : (n + step - 1) / step = 1 := by
      apply Nat.div_eq_of_lt_le <;> omega
    have h3 : (0 + step - 1) / step = 0 := Nat.div_eq_of_lt (by omega)
    rw [h1, h2, h3]
  · have h1 : n + step - 1 = (n - step + step - 1) + step := by omega
    rw [h1, Nat.add_div_right _ (by omega)]

theorem numChunks_lower (n step : Nat) (hs : 1 ≤ step) : n ≤ numChunks n step * step := by
  unfold numChunks
  have h := Nat.div_add_mod (n + step - 1) step
  have hm : (n + step - 1) % step < step := Nat.mod_lt _ (by omega)
  rw [Nat.mul_comm]
  generalize hqq : step * ((n + step - 1) / step) = m at h ⊢
  generalize hrr : (n + step - 1) % step = r at h hm
  omega

theorem numChunks_upper (n step : Nat) (hs : 1 ≤ step) : numChunks n step * step < n + step := by
  unfold numChunks
  have h : (n + step - 1) / step * step ≤ n + step - 1 := Nat.div_mul_le_self _ _
  generalize hqq : (n + step - 1) / step * step = m at h ⊢
  omega

theorem chunkStartsPos_succ (n step : Nat) (hs : 1 ≤ step) (hn : 1 ≤ n) :
    chunkStartsPos n step = 0 :: (chunkStartsPos (n - step) step).map (fun i => i + step) := by
  unfold chunkStartsPos
  rw [numChunks_succ n step hs hn, List.range_succ_eq_map]
  simp only [List.map_cons, Nat.zero_mul, List.map_map]
  congr 1
  apply List.map_congr_left
  intro i _
  simp [Function.comp, Nat.succ_mul]

theorem sliceChunks_nil (step : Nat) (hs : 1 ≤ step) :
    sliceChunks step ([] : List α) = [] := by
  simp [sliceChunks, chunkStartsPos, numChunks_zero step hs]

theorem sliceChunks_cons (step : Nat) (hs : 1 ≤ step) (data : List α) (hne : data ≠ []) :
    sliceChunks step data = data.take step :: sliceChunks step (data.drop step) := by
  unfold sliceChunks
  have hn : 1 ≤ data.length := List.length_pos.mpr hne
  rw [chunkStartsPos_succ data.length step hs hn, List.length_drop]
  simp only [List.map_cons, List.drop_zero, List.map_map]
  congr 1
  apply List.map_congr_left
  intro i _
  simp only [Function.comp]
  rw [List.drop_drop, Nat.add_comm step i]

theorem sliceChunks_join_fuel (step : Nat) (hs : 1 ≤ step) :
    ∀ (fuel : Nat) (data : List α), data.length ≤ fuel → (sliceChunks step data).flatten = data := by
  intro fuel
  induction fuel with
  | zero =>
    intro data h
    have hd : data = [] := by
      cases data with
      | nil => rfl
      | cons a l => simp at h
    subst hd
    rw [sliceChunks_nil step hs]
    rfl
  | succ f ih =>
    intro data h
    by_cases hne : data = []
    · subst hne
      rw [sliceChunks_nil step hs]
      rfl
    · rw [sliceChunks_cons step hs data hne, List.flatten_cons,
        ih (data.drop step) (by
          rw [List.length_drop]
          have := List.length_pos.mpr hne
          omega)]
      exact List.take_append_drop step data

theorem sliceChunks_join (step : Nat) (hs : 1 ≤ step) (data : List α) :
    (sliceChunks step data).flatten = data :=
  sliceChunks_join_fuel step hs data.length data le_rfl

theorem sliceChunks_chunk_le (step : Nat) (data : List α) :
    ∀ ch ∈ sliceChunks step data, ch.length ≤ step := by
  intro ch hch
  obtain ⟨i, _, rfl⟩ := List.mem_map.mp hch
  rw [List.length_take]
  exact min_le_left _ _

theorem sliceChunks_length (step : Nat) (data : List α) :
    (sliceChunks step data).length = numChunks data.length step := by
  simp [sliceChunks, chunkStartsPos]

/-! ## Loop and connection-scope lemmas -/

theorem execLoop_all_ok (db : Db) (s : Str) (data : List (List PyVal)) (step : Nat)
    (hdb : ∀ j, db.execResult j = Option.none) :
    ∀ (starts : List Nat) (k : Nat),
      execLoop db s data step starts k
        = (starts.map (fun i => Event.execute s ((data.drop i).take step)
            (((data.drop i).take step).length)), Except.ok ()) := by
  intro starts
  induction starts with
  | nil => intro k; rfl
  | cons i rest ih =>
    intro k
    simp [execLoop, hdb k, ih (k + 1)]

theorem execLoop_events_exec (db : Db) (s : Str) (data : List (List PyVal)) (step : Nat) :
    ∀ (starts : List Nat) (k : Nat),
      ∀ ev ∈ (execLoop db s data step starts k).1, isExecEvent ev = true := by
  intro starts
  induction starts with
  | nil =>
    intro k ev h
    simp [execLoop] at h
  | cons i rest ih =>
    intro k ev h
    unfold execLoop at h
    cases hdb : db.execResult k with
    | some e =>
      rw [hdb] at h
      simp at h
      subst h
      rfl
    | none =>
      rw [hdb] at h
      simp at h
      rcases h with rfl | h
      · rfl
      · exact ih (k + 1) ev h

theorem execLoop_fail (db : Db) (s : Str) (data : List (List PyVal)) (step : Nat) (e : PgError) :
    ∀ (starts : List Nat) (k0 k : Nat), k < starts.length →
      (∀ j, j < k → db.execResult (k0 + j) = Option.none) →
      db.execResult (k0 + k) = some e →
      (execLoop db s data step starts k0).2 = Except.error (PyExc.pgErr e) := by
  intro starts
  induction starts with
  | nil =>
    intro k0 k hk
    simp at hk
  | cons i rest ih =>
    intro k0 k hk hnone hsome
    cases k with
    | zero =>
      rw [Nat.add_zero] at hsome
      simp [execLoop, hsome]
    | succ k' =>
      have h0 : db.execResult k0 = Option.none := by
        have := hnone 0 (Nat.succ_pos k')
        simpa using this
      have ihh := ih (k0 + 1) k' (by simpa using hk)
        (fun j hj => by
          have := hnone (j + 1) (by omega)
          rw [show k0 + 1 + j = k0 + (j + 1) by omega]
          exact this)
        (by
          rw [show k0 + 1 + k' = k0 + (k' + 1) by omega]
          exact hsome)
      simp [execLoop, h0, ihh]

theorem pyRangeStarts_pos (n : Nat) (c : Nat) (hc : 1 ≤ c) :
    pyRangeStarts n (c : Int) = Except.ok (chunkStartsPos n c) := by
  unfold pyRangeStarts
  rw [if_neg (by omega), if_neg (by omega)]
  simp

theorem upsertStatement_ok (table : Str) (cols cc excl : List Str) (pol : Str)
    (hpol : pol = "update".data ∨ pol = "nothing".data) :
    ∃ stmt, upsertStatement table cols cc excl pol = Except.ok stmt := by
  unfold upsertStatement onConflictPart
  rcases hpol with rfl | rfl
  · by_cases h : updColsOf cols cc excl = []
    · rw [if_pos (Or.inr h)]
      exact ⟨_, rfl⟩
    · rw [if_neg (by
        rintro (habs | habs)
        · exact absurd habs (by decide)
        · exact h habs), if_pos rfl]
      exact ⟨_, rfl⟩
  · rw [if_pos (Or.inl rfl)]
    exact ⟨_, rfl⟩

theorem upsert_df_eq_tail (db : Db) (table : Str) (d : DataFrame) (cc excl : List Str)
    (pol : Str) (cs : Int) (stmt : Str)
    (hr : d.rows ≠ []) (hc : d.cols ≠ []) (hcc : cc ≠ [])
    (hstmt : upsertStatement table d.cols cc excl pol = Except.ok stmt) :
    upsert_df db table (some d) cc excl pol cs = upsertTail db table stmt (coerceRows d) cs := by
  simp [upsert_df, dfEmpty_eq_false hr hc, hcc, hstmt]

/-- The whole event trace of a fully successful upsert call, through the
connection scope. -/
theorem upsertTail_ok (db : Db) (table stmt : Str) (data : List (List PyVal)) (c : Nat)
    (hconn : db.connectResult = Option.none) (hexec : ∀ j, db.execResult j = Option.none)
    (hc : 1 ≤ c) :
    upsertTail db table stmt data (c : Int)
      = ⟨connOpenEvents
          ++ (sliceChunks c data).map (fun ch => Event.execute stmt ch ch.length)
          ++ [Event.commit] ++ connCloseEvents
          ++ [Event.log .info (upsertOkMsg table data.length)],
        Except.ok PyVal.none⟩ := by
  have hloop := execLoop_all_ok db stmt data c hexec (chunkStartsPos data.length c) 0
  simp only [upsertTail, runBody, pyRangeStarts_pos data.length c hc, Int.toNat_natCast,
    hloop, hconn, conectarPostgres]
  simp [sliceChunks, List.map_map, Function.comp, List.append_assoc]

/-! ## C6 -/

/-- C6: the cell coercion `_to_native` is total over the modelled value
domain and maps each case as specified: missing-value markers to null,
numpy wrappers to native scalars preserving the int/float distinction,
`Timestamp` to a datetime with the same instant and timezone,
`Timedelta` to total seconds, everything else unchanged. -/
theorem c6_to_native_mapping :
    (∀ v, pdIsna v = true → toNative v = PyVal.none) ∧
    (∀ n, toNative (PyVal.npInt n) = PyVal.pyInt n) ∧
    (∀ q, toNative (PyVal.npFloat q) = PyVal.pyFloat q) ∧
    (∀ t, toNative (PyVal.timestamp t) = PyVal.datetime t) ∧
    (∀ s, toNative (PyVal.timedelta s) = PyVal.pyFloat s) ∧
    (∀ v, pdIsna v = false → isNpGeneric v = false → isPdTimestamp v = false →
      isPdTimedelta v = false → toNative v = v) := by
  refine ⟨?_, ?_, ?_, ?_, ?_, ?_⟩
  · intro v h
    cases v <;> simp_all [toNative, pdIsna]
  · intro n
    rfl
  · intro q
    rfl
  · intro t
    rfl
  · intro s
    simp [toNative, pdIsna, isNpGeneric, isPdTimestamp, isPdTimedelta, totalSeconds]
  · intro v h1 h2 h3 h4
    cases v <;> simp_all [toNative, pdIsna, isNpGeneric, isPdTimestamp, isPdTimedelta]

/-- C6 witness: concrete instances, including the wrapped 42. -/
theorem c6_witness :
    toNative PyVal.nan = PyVal.none ∧
    toNative (PyVal.npInt 42) = PyVal.pyInt 42 ∧
    toNative (PyVal.pyStr "x".data) = PyVal.pyStr "x".data := by
  refine ⟨c6_to_native_mapping.1 PyVal.nan (by decide), c6_to_native_mapping.2.1 42, ?_⟩
  exact c6_to_native_mapping.2.2.2.2.2 (PyVal.pyStr "x".data)
    (by decide) (by decide) (by decide) (by decide)

/-! ## C9 -/

/-- C9: the connection scope of `conectar_postgres` closes the connection
on every exit path: opens and closes balance, a successful open is always
followed by a close, and when `connect` fails no connection was opened. -/
theorem c9_connection_released (cr : Option PgError) (bodyEvents : List Event)
    (bodyResult : Except PyExc Unit)
    (hc : Event.connect ∉ bodyEvents) (hcl : Event.close ∉ bodyEvents) :
    ((conectarPostgres cr (bodyEvents, bodyResult)).1.count Event.connect
      = (conectarPostgres cr (bodyEvents, bodyResult)).1.count Event.close) ∧
    (cr = Option.none → Event.connect ∈ (conectarPostgres cr (bodyEvents, bodyResult)).1 ∧
      Event.close ∈ (conectarPostgres cr (bodyEvents, bodyResult)).1) ∧
    (∀ e, cr = some e → Event.connect ∉ (conectarPostgres cr (bodyEvents, bodyResult)).1) := by
  have hcount : bodyEvents.count Event.connect = 0 := List.count_eq_zero.mpr hc
  have hcount2 : bodyEvents.count Event.close = 0 := List.count_eq_zero.mpr hcl
  cases cr with
  | none =>
    cases bodyResult with
    | ok u =>
      refine ⟨?_, fun _ => ⟨?_, ?_⟩, fun e he => by simp at he⟩ <;>
        simp [conectarPostgres, connOpenEvents, connCloseEvents, List.count_append,
          hcount, hcount2, List.count_cons]
    | error ex =>
      refine ⟨?_, fun _ => ⟨?_, ?_⟩, fun e he => by simp at he⟩ <;>
        simp [conectarPostgres, connOpenEvents, connCloseEvents, List.count_append,
          hcount, hcount2, List.count_cons]
  | some e =>
    refine ⟨?_, fun h => by simp at h, fun e' _ => ?_⟩ <;>
      simp [conectarPostgres]

/-- C9 witness. -/
theorem c9_witness :
    (conectarPostgres Option.none ([], Except.ok ())).1.count Event.connect
      = (conectarPostgres Option.none ([], Except.ok ())).1.count Event.close :=
  (c9_connection_released Option.none [] (Except.ok ())
    (by decide) (by decide)).1

/-! ## C3 -/

/-- C3 counterexample: a reference with two separators is not a
`MalformedReference` error — `_qual_name` quotes all three trimmed
segments, and a whole upsert call on table `"a.b.c"` runs to a successful
commit. -/
theorem c3_counterexample :
    qualName "a.b.c".data = "\"a\".\"b\".\"c\"".data ∧
    (upsert_df dbOk "a.b.c".data (some dfOneCol) ["id".data] [] "update".data 10).result
      = Except.ok PyVal.none ∧
    Event.commit ∈
      (upsert_df dbOk "a.b.c".data (some dfOneCol) ["id".data] [] "update".data 10).events := by
  refine ⟨by decide, by decide, by decide⟩

/-- C3 amended: `_qual_name` splits on every `.`, trims and quotes every
segment, and never raises: a reference assembled from any non-empty list
of dot-free segments parses back into exactly those segments, each
individually quoted (so `"a.b.c"` gives three quoted identifiers rather
than an error); `_qualify_table` splits only on the first `.` and does
not trim. -/
theorem c3_amended_parsing (segs : List Str) (hne : segs ≠ [])
    (hnosep : ∀ s ∈ segs, '.' ∉ s) :
    qualName (joinSep ['.'] segs)
      = joinSep ['.'] (segs.map (fun s => quoteIdent (stripChars s))) ∧
    qualName "orders".data = "\"orders\"".data ∧
    qualName "sales.orders".data = "\"sales\".\"orders\"".data ∧
    qualName " sales . orders ".data = "\"sales\".\"orders\"".data ∧
    qualName "a.b.c".data = "\"a\".\"b\".\"c\"".data ∧
    qualifyTable "a.b.c".data = "\"a\".\"b.c\"".data ∧
    qualifyTable " s . t ".data = "\" s \".\" t \"".data ∧
    baseName "sales.orders".data = "\"orders\"".data := by
  refine ⟨?_, by decide, by decide, by decide, by decide, by decide, by decide, by decide⟩
  unfold qualName
  rw [splitOnChar_joinSep '.' segs hne hnosep]

/-- C3 amended witness. -/
theorem c3_amended_witness :
    qualName (joinSep ['.'] ["a".data, "b".data, "c".data])
      = joinSep ['.'] (["a".data, "b".data, "c".data].map (fun s => quoteIdent (stripChars s))) :=
  (c3_amended_parsing ["a".data, "b".data, "c".data] (by decide) (by decide)).1

/-! ## C2 -/

/-- C2 counterexample: with dataset columns `{id, v}`, conflict columns
`{id}` and exclusion set `{v}`, the update-column set is empty, so a call
with the invalid policy `"merge"` raises nothing: it degenerates to
`DO NOTHING`, runs, commits and returns normally. -/
theorem c2_counterexample :
    (upsert_df dbOk "t".data (some dfTwoCol) ["id".data] ["v".data] "merge".data 100).result
      = Except.ok PyVal.none ∧
    Event.commit ∈
      (upsert_df dbOk "t".data (some dfTwoCol) ["id".data] ["v".data] "merge".data 100).events := by
  refine ⟨by decide, by decide⟩

/-- C2 amended: provided the update-column set (dataset columns minus
conflict columns minus exclusion set) is non-empty, a policy outside
`{"update", "nothing"}` makes `upsert_df` raise the configuration
`ValueError` with no side effect at all: no log, no connection, no
execution, no commit.  (With an empty update-column set the invalid
policy is not detected and the call degenerates to `DO NOTHING`.) -/
theorem c2_invalid_policy_raises (db : Db) (table : Str) (d : DataFrame)
    (cc excl : List Str) (pol : Str) (cs : Int)
    (hr : d.rows ≠ []) (hc : d.cols ≠ []) (hcc : cc ≠ [])
    (hp1 : pol ≠ "update".data) (hp2 : pol ≠ "nothing".data)
    (hupd : updColsOf d.cols cc excl ≠ []) :
    upsert_df db table (some d) cc excl pol cs
      = ⟨[], Except.error (PyExc.valueError invalidPolicyMsg)⟩ := by
  have hde : dfEmpty d = false := dfEmpty_eq_false hr hc
  have hstmt : upsertStatement table d.cols cc excl pol
      = Except.error (PyExc.valueError invalidPolicyMsg) := by
    simp [upsertStatement, onConflictPart, hp1, hp2, hupd]
  simp [upsert_df, hde, hcc, hstmt]

/-- C2 amended witness. -/
theorem c2_witness :
    upsert_df dbOk "t".data (some dfTwoCol) ["id".data] [] "merge".data 100
      = ⟨[], Except.error (PyExc.valueError invalidPolicyMsg)⟩ :=
  c2_invalid_policy_raises dbOk "t".data dfTwoCol ["id".data] [] "merge".data 100
    (by decide) (by decide) (by decide) (by decide) (by decide) (by decide)

/-! ## C7 -/

/-- C7: on a missing or zero-row dataset, both `simple_insert` and
`upsert_df` return immediately and successfully — `simple_insert` with
rows-submitted count `0`, `upsert_df` with Python `None` — and their
whole trace is one warning log: no connection, no execution, no commit. -/
theorem c7_empty_dataset (db : Db) (table : Str) (df : Option DataFrame)
    (cc excl : List Str) (pol : Str) (cs : Int) (ps : Nat)
    (h : df = Option.none ∨ ∃ d, df = some d ∧ dfEmpty d = true) :
    simple_insert db table df ps
      = ⟨[Event.log .warning (warnEmptyMsg table)], Except.ok (PyVal.pyInt 0)⟩ ∧
    upsert_df db table df cc excl pol cs
      = ⟨[Event.log .warning (warnEmptyMsg table)], Except.ok PyVal.none⟩ := by
  rcases h with h | ⟨d, rfl, hd⟩
  · subst h
    exact ⟨rfl, rfl⟩
  · constructor
    · simp [simple_insert, hd]
    · simp [upsert_df, hd]

/-- C7 witness: a dataset with a column and zero rows. -/
theorem c7_witness :
    simple_insert dbOk "t".data (some ⟨["a".data], []⟩) 1000
      = ⟨[Event.log .warning (warnEmptyMsg "t".data)], Except.ok (PyVal.pyInt 0)⟩ :=
  (c7_empty_dataset dbOk "t".data (some ⟨["a".data], []⟩) ["a".data] [] "update".data 10000 1000
    (Or.inr ⟨_, rfl, by decide⟩)).1

/-! ## C1 -/

theorem specUpdateCols_eq (cols cc excl : List Str) :
    specUpdateCols cols cc excl = updColsOf cols cc excl := by
  unfold specUpdateCols updColsOf
  apply List.filter_congr
  intro c _
  by_cases h1 : c ∈ cc <;> by_cases h2 : c ∈ excl <;>
    simp [List.mem_union_iff, h1, h2]

/-- C1: with policy `"update"`, the generated statement's `SET` list runs
over exactly the dataset columns minus (conflict columns ∪ exclusion
set), in dataset order, as `col = EXCLUDED.col`, followed by a `WHERE`
disjunction of `EXCLUDED.col IS DISTINCT FROM <base table>.col` over the
same columns; when that set is empty the statement ends in
`ON CONFLICT (...) DO NOTHING` instead. -/
theorem c1_upsert_update_statement (table : Str) (cols cc excl : List Str) (hcc : cc ≠ []) :
    specUpdateCols cols cc excl = updColsOf cols cc excl ∧
    (specUpdateCols cols cc excl ≠ [] →
      upsertStatement table cols cc excl "update".data
        = Except.ok (insertSqlText table cols
            ++ " ON CONFLICT (".data ++ conflictIdentOf cc ++ ") DO UPDATE SET ".data
            ++ setPairsOf (specUpdateCols cols cc excl) ++ " WHERE ".data
            ++ whereDiffOf table (specUpdateCols cols cc excl))) ∧
    (specUpdateCols cols cc excl = [] →
      upsertStatement table cols cc excl "update".data
        = Except.ok (insertSqlText table cols
            ++ " ON CONFLICT (".data ++ conflictIdentOf cc ++ ") DO NOTHING".data)) := by
  have heq := specUpdateCols_eq cols cc excl
  refine ⟨heq, ?_, ?_⟩
  · intro h
    rw [heq] at h
    rw [heq]
    unfold upsertStatement onConflictPart
    rw [if_neg (by
      rintro (habs | habs)
      · exact absurd habs (by decide)
      · exact h habs), if_pos rfl]
    simp [List.append_assoc]
  · intro h
    rw [heq] at h
    unfold upsertStatement onConflictPart
    rw [if_pos (Or.inr h)]
    simp [List.append_assoc]

/-- C1 witness: table `t`, columns `{id, v}`, conflict `{id}`, no
exclusions. -/
theorem c1_witness :
    upsertStatement "t".data ["id".data, "v".data] ["id".data] [] "update".data
      = Except.ok (insertSqlText "t".data ["id".data, "v".data]
          ++ " ON CONFLICT (".data ++ conflictIdentOf ["id".data] ++ ") DO UPDATE SET ".data
          ++ setPairsOf (specUpdateCols ["id".data, "v".data] ["id".data] [])
          ++ " WHERE ".data
          ++ whereDiffOf "t".data (specUpdateCols ["id".data, "v".data] ["id".data] [])) :=
  (c1_upsert_update_statement "t".data ["id".data, "v".data] ["id".data] []
    (by decide)).2.1 (by decide)

/-! ## C5 -/

theorem count_nonexec_execmap (a : Event) (stmt : Str)
    (chunks : List (List (List PyVal))) (ha : isExecEvent a = false) :
    (chunks.map (fun ch => Event.execute stmt ch ch.length)).count a = 0 := by
  rw [List.count_eq_zero]
  intro h
  obtain ⟨ch, _, hch⟩ := List.mem_map.mp h
  rw [← hch] at ha
  simp [isExecEvent] at ha

theorem executesOf_happy (stmt : Str) (chunks : List (List (List PyVal)))
    (table : Str) (n : Nat) :
    executesOf (connOpenEvents ++ chunks.map (fun ch => Event.execute stmt ch ch.length)
        ++ [Event.commit] ++ connCloseEvents ++ [Event.log .info (upsertOkMsg table n)])
      = chunks.map (fun ch => Event.execute stmt ch ch.length) := by
  have hmap : List.filter isExecEvent (chunks.map (fun ch => Event.execute stmt ch ch.length))
      = chunks.map (fun ch => Event.execute stmt ch ch.length) :=
    List.filter_eq_self.mpr (by
      intro ev hev
      obtain ⟨ch, _, rfl⟩ := List.mem_map.mp hev
      rfl)
  have h1 : isExecEvent Event.connect = false := rfl
  have h2 : ∀ (lv : LogLevel) (m : Str), isExecEvent (Event.log lv m) = false := fun _ _ => rfl
  have h3 : isExecEvent Event.commit = false := rfl
  have h4 : isExecEvent Event.close = false := rfl
  simp [executesOf, connOpenEvents, connCloseEvents, List.filter_append, h1, h2, h3, h4, hmap]

theorem coerceRows_dfBig : coerceRows dfBig = List.replicate 25000 [PyVal.pyInt 0] := by
  unfold coerceRows dfBig
  rw [List.map_replicate]
  rw [show List.map toNative [PyVal.pyInt 0] = [PyVal.pyInt 0] from by decide]

theorem dfBig_rows_ne : dfBig.rows ≠ [] := by
  show List.replicate 25000 [PyVal.pyInt 0] ≠ []
  intro h
  have := congrArg List.length h
  rw [List.length_replicate, List.length_nil] at this
  omega

theorem sliceChunks_replicate (step n : Nat) (a : α) :
    sliceChunks step (List.replicate n a)
      = (chunkStartsPos n step).map (fun i => List.replicate (min step (n - i)) a) := by
  unfold sliceChunks
  rw [List.length_replicate]
  apply List.map_congr_left
  intro i _
  rw [List.drop_replicate, List.take_replicate]

/-- The spec's concrete chunking instance: 25000 rows with chunk size
10000 give exactly three executions of 10000, 10000 and 5000 rows. -/
theorem dfBig_exec_lengths :
    (executesOf (upsert_df dbOk "t".data (some dfBig) ["a".data] [] "update".data
        ((10000 : Nat) : Int)).events).map (fun ev => (execEventRows ev).length)
      = [10000, 10000, 5000] := by
  obtain ⟨stmt, hstmt⟩ :=
    upsertStatement_ok "t".data dfBig.cols ["a".data] [] "update".data (Or.inl rfl)
  rw [upsert_df_eq_tail dbOk "t".data dfBig ["a".data] [] "update".data _ stmt
      dfBig_rows_ne (by decide) (by decide) hstmt,
    upsertTail_ok dbOk "t".data stmt (coerceRows dfBig) 10000 rfl (fun _ => rfl) (by omega),
    executesOf_happy, List.map_map, coerceRows_dfBig, sliceChunks_replicate]
  rw [show chunkStartsPos 25000 10000 = [0, 10000, 20000] by decide]
  simp only [List.map_cons, List.map_nil, Function.comp, execEventRows, List.length_replicate]
  norm_num

/-- C5: for a non-empty dataset and chunk size `c ≥ 1`, `upsert_df` runs
exactly `ceil(n / c)` consecutive chunk executions of at most `c` rows
each, whose concatenation is the coerced row sequence, on the one
connection of the call, and commits exactly once, after the last chunk;
in particular 25000 rows with chunk size 10000 give executions of
10000, 10000 and 5000 rows. -/
theorem c5_upsert_chunking (table : Str) (d : DataFrame) (cc excl : List Str)
    (pol : Str) (c : Nat) (data : List (List PyVal))
    (hr : d.rows ≠ []) (hcols : d.cols ≠ []) (hcc : cc ≠ [])
    (hc : 1 ≤ c) (hpol : pol = "update".data ∨ pol = "nothing".data)
    (hdata : data = coerceRows d) :
    (∃ stmt, upsertStatement table d.cols cc excl pol = Except.ok stmt ∧
      (upsert_df dbOk table (some d) cc excl pol (c : Int)).events
        = connOpenEvents
            ++ (sliceChunks c data).map (fun ch => Event.execute stmt ch ch.length)
            ++ [Event.commit] ++ connCloseEvents
            ++ [Event.log .info (upsertOkMsg table data.length)]) ∧
    (sliceChunks c data).flatten = data ∧
    (∀ ch ∈ sliceChunks c data, ch.length ≤ c) ∧
    (sliceChunks c data).length = numChunks data.length c ∧
    data.length ≤ numChunks data.length c * c ∧
    numChunks data.length c * c < data.length + c ∧
    (executesOf (upsert_df dbOk table (some d) cc excl pol (c : Int)).events).map execEventRows
      = sliceChunks c data ∧
    (upsert_df dbOk table (some d) cc excl pol (c : Int)).events.count Event.commit = 1 ∧
    (upsert_df dbOk table (some d) cc excl pol (c : Int)).events.count Event.connect = 1 ∧
    (executesOf (upsert_df dbOk "t".data (some dfBig) ["a".data] [] "update".data
        ((10000 : Nat) : Int)).events).map (fun ev => (execEventRows ev).length)
      = [10000, 10000, 5000] := by
  subst hdata
  obtain ⟨stmt, hstmt⟩ := upsertStatement_ok table d.cols cc excl pol hpol
  have hm := upsert_df_eq_tail dbOk table d cc excl pol (c : Int) stmt hr hcols hcc hstmt
  have ht := upsertTail_ok dbOk table stmt (coerceRows d) c rfl (fun _ => rfl) hc
  have hcomp : execEventRows ∘ (fun ch => Event.execute stmt ch ch.length)
      = (id : List (List PyVal) → List (List PyVal)) := funext fun ch => rfl
  refine ⟨⟨stmt, hstmt, by rw [hm, ht]⟩, sliceChunks_join c hc _, sliceChunks_chunk_le c _,
    sliceChunks_length c _, numChunks_lower _ c hc, numChunks_upper _ c hc, ?_, ?_, ?_,
    dfBig_exec_lengths⟩
  · rw [hm, ht]
    show (executesOf _).map execEventRows = _
    rw [executesOf_happy, List.map_map, hcomp, List.map_id]
  · rw [hm, ht]
    show List.count Event.commit _ = 1
    simp only [List.count_append]
    rw [count_nonexec_execmap Event.commit stmt _ (by decide),
      show List.count Event.commit connOpenEvents = 0 from by decide,
      show List.count Event.commit connCloseEvents = 0 from by decide,
      show List.count Event.commit [Event.commit] = 1 from by decide,
      List.count_eq_zero.mpr (by simp :
        Event.commit ∉ [Event.log .info (upsertOkMsg table (coerceRows d).length)])]
  · rw [hm, ht]
    show List.count Event.connect _ = 1
    simp only [List.count_append]
    rw [count_nonexec_execmap Event.connect stmt _ (by decide),
      show List.count Event.connect connOpenEvents = 1 from by decide,
      show List.count Event.connect connCloseEvents = 0 from by decide,
      show List.count Event.connect [Event.commit] = 0 from by decide,
      List.count_eq_zero.mpr (by simp :
        Event.connect ∉ [Event.log .info (upsertOkMsg table (coerceRows d).length)])]

/-- C5 witness: three rows with chunk size two. -/
theorem c5_witness :
    (sliceChunks 2 (coerceRows dfThreeRows)).flatten = coerceRows dfThreeRows ∧
    (executesOf (upsert_df dbOk "t".data (some dfThreeRows) ["a".data] [] "update".data
        ((2 : Nat) : Int)).events).map execEventRows = sliceChunks 2 (coerceRows dfThreeRows) :=
  ⟨(c5_upsert_chunking "t".data dfThreeRows ["a".data] [] "update".data 2 (coerceRows dfThreeRows)
      (by decide) (by decide) (by decide) (by omega) (Or.inl rfl) rfl).2.1,
   (c5_upsert_chunking "t".data dfThreeRows ["a".data] [] "update".data 2 (coerceRows dfThreeRows)
      (by decide) (by decide) (by decide) (by omega) (Or.inl rfl) rfl).2.2.2.2.2.2.1⟩

/-! ## C4 -/

theorem coerceRows_length (d : DataFrame) : (coerceRows d).length = d.rows.length := by
  simp [coerceRows]

theorem insertCoerceRows_length (d : DataFrame) :
    (insertCoerceRows d).length = d.rows.length := by
  simp [insertCoerceRows]

theorem runBody_fail (db : Db) (stmt : Str) (data : List (List PyVal)) (c : Nat) (e : PgError)
    (k : Nat) (hc : 1 ≤ c) (hk : k < numChunks data.length c)
    (hnone : ∀ j, j < k → db.execResult j = Option.none) (hsome : db.execResult k = some e) :
    (runBody db stmt data (c : Int)).2 = Except.error (PyExc.pgErr e) ∧
    ∀ ev ∈ (runBody db stmt data (c : Int)).1, isExecEvent ev = true := by
  have hlen : (chunkStartsPos data.length c).length = numChunks data.length c := by
    simp [chunkStartsPos]
  have hfail := execLoop_fail db stmt data c e (chunkStartsPos data.length c) 0 k
    (by rw [hlen]; exact hk)
    (by intro j hj; simpa using hnone j hj)
    (by simpa using hsome)
  have hexec := execLoop_events_exec db stmt data c (chunkStartsPos data.length c) 0
  rcases hp : execLoop db stmt data c (chunkStartsPos data.length c) 0 with ⟨bevs, bres⟩
  rw [hp] at hfail hexec
  have hbres : bres = Except.error (PyExc.pgErr e) := hfail
  subst hbres
  have hrb : runBody db stmt data (c : Int) = (bevs, Except.error (PyExc.pgErr e)) := by
    unfold runBody
    rw [pyRangeStarts_pos data.length c hc, Int.toNat_natCast]
    simp only [hp]
  rw [hrb]
  exact ⟨rfl, fun ev hev => hexec ev hev⟩

theorem upsertTail_fail_conn (db : Db) (table stmt : Str) (data : List (List PyVal)) (cs : Int)
    (e : PgError) (hconn : db.connectResult = some e) :
    (upsertTail db table stmt data cs).result = Except.ok PyVal.none ∧
    Event.log .error (upsertErrMsg table e) ∈ (upsertTail db table stmt data cs).events ∧
    Event.commit ∉ (upsertTail db table stmt data cs).events := by
  refine ⟨?_, ?_, ?_⟩ <;> simp [upsertTail, conectarPostgres, hconn]

theorem upsertTail_fail_exec (db : Db) (table stmt : Str) (data : List (List PyVal)) (cs : Int)
    (e : PgError) (hconn : db.connectResult = Option.none)
    (hres : (runBody db stmt data cs).2 = Except.error (PyExc.pgErr e))
    (hevs : ∀ ev ∈ (runBody db stmt data cs).1, isExecEvent ev = true) :
    (upsertTail db table stmt data cs).result = Except.ok PyVal.none ∧
    Event.log .error (upsertErrMsg table e) ∈ (upsertTail db table stmt data cs).events ∧
    Event.commit ∉ (upsertTail db table stmt data cs).events := by
  rcases hb : runBody db stmt data cs with ⟨bevs, bres⟩
  rw [hb] at hres hevs
  have hbres : bres = Except.error (PyExc.pgErr e) := hres
  subst hbres
  have hnb : Event.commit ∉ bevs := fun hm => by
    have := hevs Event.commit hm
    simp [isExecEvent] at this
  refine ⟨?_, ?_, ?_⟩ <;>
    simp [upsertTail, hb, conectarPostgres, hconn, connOpenEvents, connCloseEvents,
      List.mem_append, hnb]

theorem simple_insert_fail (db : Db) (table : Str) (d : DataFrame) (ps : Nat) (e : PgError)
    (hr : d.rows ≠ []) (hcols : d.cols ≠ [])
    (hfail : db.connectResult = some e ∨
      (db.connectResult = Option.none ∧ db.execResult 0 = some e)) :
    (simple_insert db table (some d) ps).result = Except.ok (PyVal.pyInt 0) ∧
    Event.log .error (insertErrMsg table e) ∈ (simple_insert db table (some d) ps).events ∧
    Event.commit ∉ (simple_insert db table (some d) ps).events := by
  have hde := dfEmpty_eq_false hr hcols
  rcases hfail with hconn | ⟨hconn, hexec⟩
  · cases hex : db.execResult 0 with
    | some e2 =>
      refine ⟨?_, ?_, ?_⟩ <;> simp [simple_insert, hde, hex, hconn, conectarPostgres]
    | none =>
      refine ⟨?_, ?_, ?_⟩ <;> simp [simple_insert, hde, hex, hconn, conectarPostgres]
  · refine ⟨?_, ?_, ?_⟩ <;>
      simp [simple_insert, hde, hexec, hconn, conectarPostgres, connOpenEvents,
        connCloseEvents, List.mem_append]

/-- C4: when `connect` raises or any chunk execution raises a
`psycopg2.Error`, neither `upsert_df` nor `simple_insert` propagates the
exception: each returns its failure value (`None` / `0`), emits the
error-level log line carrying the driver-reported code and text, and
never invokes commit on that call's connection. -/
theorem c4_failure_contract (db : Db) (table : Str) (d : DataFrame) (cc excl : List Str)
    (pol : Str) (c : Nat) (ps : Nat) (e : PgError) (k : Nat)
    (hr : d.rows ≠ []) (hcols : d.cols ≠ []) (hcc : cc ≠ [])
    (hc : 1 ≤ c) (hpol : pol = "update".data ∨ pol = "nothing".data) :
    ((db.connectResult = some e ∨
        (db.connectResult = Option.none ∧ k < numChunks (coerceRows d).length c ∧
          (∀ j, j < k → db.execResult j = Option.none) ∧ db.execResult k = some e)) →
      ((upsert_df db table (some d) cc excl pol (c : Int)).result = Except.ok PyVal.none ∧
        Event.log .error (upsertErrMsg table e)
          ∈ (upsert_df db table (some d) cc excl pol (c : Int)).events ∧
        Event.commit ∉ (upsert_df db table (some d) cc excl pol (c : Int)).events)) ∧
    ((db.connectResult = some e ∨
        (db.connectResult = Option.none ∧ db.execResult 0 = some e)) →
      ((simple_insert db table (some d) ps).result = Except.ok (PyVal.pyInt 0) ∧
        Event.log .error (insertErrMsg table e) ∈ (simple_insert db table (some d) ps).events ∧
        Event.commit ∉ (simple_insert db table (some d) ps).events)) := by
  obtain ⟨stmt, hstmt⟩ := upsertStatement_ok table d.cols cc excl pol hpol
  constructor
  · intro hfail
    rw [upsert_df_eq_tail db table d cc excl pol (c : Int) stmt hr hcols hcc hstmt]
    rcases hfail with hconn | ⟨hconn, hk, hnone, hsome⟩
    · exact upsertTail_fail_conn db table stmt (coerceRows d) (c : Int) e hconn
    · obtain ⟨hres, hevs⟩ := runBody_fail db stmt (coerceRows d) c e k hc hk hnone hsome
      exact upsertTail_fail_exec db table stmt (coerceRows d) (c : Int) e hconn hres hevs
  · exact fun hfail => simple_insert_fail db table d ps e hr hcols hfail

/-- A sample driver error. -/
def errSample : PgError :=
  ⟨"UniqueViolation".data, some "23505".data, some "duplicate key value".data, "dup".data⟩

/-- An oracle whose first chunk execution raises `errSample`. -/
def dbFailExec : Db := ⟨Option.none, fun k => if k = 0 then some errSample else Option.none⟩

/-- C4 witness: first-chunk failure on a one-row dataset. -/
theorem c4_witness :
    (upsert_df dbFailExec "t".data (some dfTwoCol) ["id".data] [] "update".data
        ((100 : Nat) : Int)).result = Except.ok PyVal.none ∧
    Event.commit ∉ (upsert_df dbFailExec "t".data (some dfTwoCol) ["id".data] [] "update".data
        ((100 : Nat) : Int)).events ∧
    (simple_insert dbFailExec "t".data (some dfTwoCol) 1000).result
      = Except.ok (PyVal.pyInt 0) := by
  have h := c4_failure_contract dbFailExec "t".data dfTwoCol ["id".data] [] "update".data 100 1000
    errSample 0 (by decide) (by decide) (by decide) (by omega) (Or.inl rfl)
  have h1 := h.1 (Or.inr ⟨rfl, by decide, fun j hj => absurd hj (by omega), by decide⟩)
  have h2 := h.2 (Or.inr ⟨rfl, by decide⟩)
  exact ⟨h1.1, h1.2.2, h2.1⟩

/-! ## C8 -/

theorem simple_insert_ok (db : Db) (table : Str) (d : DataFrame) (ps : Nat)
    (hconn : db.connectResult = Option.none) (hexec : db.execResult 0 = Option.none)
    (hr : d.rows ≠ []) (hcols : d.cols ≠ []) :
    simple_insert db table (some d) ps
      = ⟨connOpenEvents
          ++ [Event.execute ("INSERT INTO ".data ++ qualifyTable table ++ " (".data
                ++ colsStrOf d.cols ++ ") VALUES %s".data) (insertCoerceRows d) ps, Event.commit]
          ++ connCloseEvents
          ++ [Event.log .info (insertOkMsg table (insertCoerceRows d).length)],
        Except.ok (PyVal.pyInt ((insertCoerceRows d).length : Int))⟩ := by
  simp [simple_insert, dfEmpty_eq_false hr hcols, hexec, hconn, conectarPostgres,
    List.append_assoc]

/-- C8 counterexample: a successful one-row upsert returns Python `None`
— its returned value reports no row count — while the insert path does
return the count. -/
theorem c8_counterexample :
    returnedRowCount (upsert_df dbOk "t".data (some dfOneCol) ["id".data] [] "update".data 100)
      = Option.none ∧
    (upsert_df dbOk "t".data (some dfOneCol) ["id".data] [] "update".data 100).result
      = Except.ok PyVal.none ∧
    dfOneCol.rows.length = 1 ∧
    returnedRowCount (simple_insert dbOk "t".data (some dfOneCol) 1000) = some 1 := by
  refine ⟨by decide, by decide, by decide, by decide⟩

/-- C8 amended: on success, `simple_insert` returns the dataset's row
count as a Python int; `upsert_df` returns `None` (no outcome object) and
reports the row count only through the info-level
`"{n} linhas processadas em {table}."` log line (`simple_insert` logs the
analogous `linhas inseridas` line). -/
theorem c8_amended_outcomes (table : Str) (d : DataFrame) (cc excl : List Str) (pol : Str)
    (c ps : Nat)
    (hr : d.rows ≠ []) (hcols : d.cols ≠ []) (hcc : cc ≠ []) (hc : 1 ≤ c)
    (hpol : pol = "update".data ∨ pol = "nothing".data) :
    (simple_insert dbOk table (some d) ps).result
      = Except.ok (PyVal.pyInt (d.rows.length : Int)) ∧
    returnedRowCount (simple_insert dbOk table (some d) ps) = some (d.rows.length : Int) ∧
    (upsert_df dbOk table (some d) cc excl pol (c : Int)).result = Except.ok PyVal.none ∧
    returnedRowCount (upsert_df dbOk table (some d) cc excl pol (c : Int)) = Option.none ∧
    Event.log .info (upsertOkMsg table d.rows.length)
      ∈ (upsert_df dbOk table (some d) cc excl pol (c : Int)).events ∧
    Event.log .info (insertOkMsg table d.rows.length)
      ∈ (simple_insert dbOk table (some d) ps).events := by
  have hsi := simple_insert_ok dbOk table d ps rfl rfl hr hcols
  obtain ⟨stmt, hstmt⟩ := upsertStatement_ok table d.cols cc excl pol hpol
  have hup := upsert_df_eq_tail dbOk table d cc excl pol (c : Int) stmt hr hcols hcc hstmt
  have ht := upsertTail_ok dbOk table stmt (coerceRows d) c rfl (fun _ => rfl) hc
  rw [insertCoerceRows_length] at hsi
  rw [coerceRows_length] at ht
  refine ⟨?_, ?_, ?_, ?_, ?_, ?_⟩
  · rw [hsi]
  · rw [hsi]
    rfl
  · rw [hup, ht]
  · rw [hup, ht]
    rfl
  · rw [hup, ht]
    simp
  · rw [hsi]
    simp

/-- C8 amended witness. -/
theorem c8_witness :
    (simple_insert dbOk "t".data (some dfOneCol) 1000).result
      = Except.ok (PyVal.pyInt (dfOneCol.rows.length : Int)) :=
  (c8_amended_outcomes "t".data dfOneCol ["id".data] [] "update".data 100 1000
    (by decide) (by decide) (by decide) (by omega) (Or.inl rfl)).1

/-! ## C10 -/

/-- C10: with a non-empty dataset, chunk size `0` raises the zero-step
`range` `ValueError` before any chunk executes (and nothing is
committed), while a negative chunk size executes zero chunks yet still
commits and logs the full `"{n} linhas processadas"` success line. -/
theorem c10_chunk_size_edge (table : Str) (d : DataFrame) (cc excl : List Str) (pol : Str)
    (hr : d.rows ≠ []) (hcols : d.cols ≠ []) (hcc : cc ≠ [])
    (hpol : pol = "update".data ∨ pol = "nothing".data) :
    ((upsert_df dbOk table (some d) cc excl pol 0).result
        = Except.error (PyExc.valueError rangeErrMsg) ∧
      executesOf (upsert_df dbOk table (some d) cc excl pol 0).events = [] ∧
      Event.commit ∉ (upsert_df dbOk table (some d) cc excl pol 0).events) ∧
    (∀ cs : Int, cs < 0 →
      (upsert_df dbOk table (some d) cc excl pol cs).result = Except.ok PyVal.none ∧
      executesOf (upsert_df dbOk table (some d) cc excl pol cs).events = [] ∧
      Event.commit ∈ (upsert_df dbOk table (some d) cc excl pol cs).events ∧
      Event.log .info (upsertOkMsg table d.rows.length)
        ∈ (upsert_df dbOk table (some d) cc excl pol cs).events) := by
  obtain ⟨stmt, hstmt⟩ := upsertStatement_ok table d.cols cc excl pol hpol
  constructor
  · rw [upsert_df_eq_tail dbOk table d cc excl pol 0 stmt hr hcols hcc hstmt]
    have hrb : runBody dbOk stmt (coerceRows d) 0
        = ([], Except.error (PyExc.valueError rangeErrMsg)) := by
      simp [runBody, pyRangeStarts]
    have htail : upsertTail dbOk table stmt (coerceRows d) 0
        = ⟨connOpenEvents
            ++ [Event.log .error (connScopeErrMsg (PyExc.valueError rangeErrMsg))]
            ++ connCloseEvents,
          Except.error (PyExc.valueError rangeErrMsg)⟩ := by
      simp [upsertTail, hrb, conectarPostgres, dbOk_connect, List.append_assoc]
    rw [htail]
    refine ⟨rfl, by decide, by decide⟩
  · intro cs hcs
    rw [upsert_df_eq_tail dbOk table d cc excl pol cs stmt hr hcols hcc hstmt]
    have hrb : runBody dbOk stmt (coerceRows d) cs = ([Event.commit], Except.ok ()) := by
      unfold runBody pyRangeStarts
      rw [if_neg (by omega), if_pos hcs]
      rfl
    have htail : upsertTail dbOk table stmt (coerceRows d) cs
        = ⟨connOpenEvents ++ [Event.commit] ++ connCloseEvents
            ++ [Event.log .info (upsertOkMsg table (coerceRows d).length)],
          Except.ok PyVal.none⟩ := by
      simp [upsertTail, hrb, conectarPostgres, dbOk_connect, List.append_assoc]
    rw [htail, coerceRows_length]
    refine ⟨rfl, ?_, ?_, ?_⟩
    · have h2 : ∀ (lv : LogLevel) (m : Str), isExecEvent (Event.log lv m) = false :=
        fun _ _ => rfl
      simp [executesOf, List.filter_append, connOpenEvents, connCloseEvents, isExecEvent, h2]
    · simp [connOpenEvents, connCloseEvents, List.mem_append]
    · simp [connOpenEvents, connCloseEvents, List.mem_append]

/-- C10 witness. -/
theorem c10_witness :
    (upsert_df dbOk "t".data (some dfTwoCol) ["id".data] [] "update".data 0).result
      = Except.error (PyExc.valueError rangeErrMsg) ∧
    Event.commit ∈ (upsert_df dbOk "t".data (some dfTwoCol) ["id".data] [] "update".data
      (-5)).events := by
  have h := c10_chunk_size_edge "t".data dfTwoCol ["id".data] [] "update".data
    (by decide) (by decide) (by decide) (Or.inl rfl)
  exact ⟨h.1.1, (h.2 (-5) (by omega)).2.2.1⟩

end FrameworkCG
